import Mathlib

/-!
Shallow embedding of the generic contiguous growable container
List<T, Allocator> from src/GenericList/list.h.

The observable state of a container is the sequence of live elements
(slots [0, count)) together with the allocated capacity.  Raw slots
[count, capacity) are uninitialized and carry no observable value, so
they are represented only through the capacity field.  size_t arithmetic
is modelled on Nat, except where unsigned wraparound matters (the Print
loop bound), where reduction modulo 2^64 is explicit.

Operations that can throw (an allocation failure propagating out of
Allocator::allocate, std::out_of_range from RemoveAt) are modelled with
Except: the error value carries the observable state of the container at
the moment the exception propagates.  Whether an allocation call
succeeds is an explicit Boolean parameter (allocOk).  Clear, Remove,
RemoveIf and the move operations perform no allocation and never throw
(move operations are noexcept in the source), so they are total
functions.
-/

namespace CppList

/-- Observable state of a List<T>: the live elements of slots [0, count)
in order, plus the allocated capacity.  A null data pointer is
represented by capacity = 0 (the class invariant: storage is null iff
capacity is 0). -/
structure LState (T : Type) where
  data : List T
  capacity : Nat
deriving DecidableEq

variable {T : Type}

/-- Count() — the number of live elements. -/
def LState.count (s : LState T) : Nat := s.data.length

/-- List() — default construction: no elements, capacity 0, null storage. -/
def emptyList : LState T := ⟨[], 0⟩

/-- Clear() — destroy all live elements, set count to 0, keep capacity. -/
def clear (s : LState T) : LState T := ⟨[], s.capacity⟩

/-- Resize(new_capacity) — allocate the new block first (the only fallible
step), relocate each live element in order into it, destroy the old slots
and free the old block, adopt block and capacity.  If the allocation
throws, no element has been touched yet: the error carries the unchanged
state. -/
def resize (allocOk : Bool) (s : LState T) (new_capacity : Nat) :
    Except (LState T) (LState T) :=
  if allocOk then .ok ⟨s.data, new_capacity⟩ else .error s

/-- Capacity(new_capacity) — no change when new_capacity <= capacity,
otherwise Resize(new_capacity). -/
def capacitySet (allocOk : Bool) (s : LState T) (new_capacity : Nat) :
    Except (LState T) (LState T) :=
  if new_capacity ≤ s.capacity then .ok s else resize allocOk s new_capacity

/-- ShrinkToFit() — no-op when capacity == count, otherwise Resize(count). -/
def shrinkToFit (allocOk : Bool) (s : LState T) :
    Except (LState T) (LState T) :=
  if s.capacity = s.count then .ok s else resize allocOk s s.count

/-- Add(args...) — when full, grow via Capacity(max(2 * capacity, 1));
then construct the new element in slot count and increment count. -/
def add (allocOk : Bool) (s : LState T) (v : T) :
    Except (LState T) (LState T) :=
  if s.capacity = s.count then
    match capacitySet allocOk s (max (2 * s.capacity) 1) with
    | .error e => .error e
    | .ok s1 => .ok ⟨s1.data ++ [v], s1.capacity⟩
  else .ok ⟨s.data ++ [v], s.capacity⟩

/-- Add with a succeeding allocator: the total function the successful
path of add computes. -/
def addOk (s : LState T) (v : T) : LState T :=
  if s.capacity = s.count then ⟨s.data ++ [v], max (2 * s.capacity) 1⟩
  else ⟨s.data ++ [v], s.capacity⟩

/-- A sequence of Add calls, applied left to right. -/
def addAll (s : LState T) (vs : List T) : LState T := vs.foldl addOk s

/-- Unchecked indexed access (operator[]) — reads slot i; only slots
below count hold a live value. -/
def idx (s : LState T) (i : Nat) : Option T := s.data[i]?

/-- FindIf(pred) — linear scan returning a pointer to the first element
satisfying pred, nullptr when none; the pointer is modelled by the index
of the element it points at. -/
def findIfIdx (pred : T → Bool) : List T → Option Nat
  | [] => none
  | x :: xs => if pred x then some 0 else (findIfIdx pred xs).map (· + 1)

/-- The picker loop of RemoveIf: starting just after the first matching
element, move-assign every element not satisfying pred into the next
placer slot; the result is the sequence the placer cursor writes. -/
def removeIfLoop (pred : T → Bool) : List T → List T
  | [] => []
  | x :: xs =>
    if pred x then removeIfLoop pred xs else x :: removeIfLoop pred xs

/-- RemoveIf(pred) on the element sequence: locate the first match with
FindIf (the initial placer); when there is none return the sequence
unchanged with removed count 0; otherwise compact the keepers after the
placer and destroy the tail from the final placer position on.  Returns
the new live sequence and end() - placer, the removed count. -/
def removeIfData (pred : T → Bool) (l : List T) : List T × Nat :=
  match findIfIdx pred l with
  | none => (l, 0)
  | some p =>
    let kept := l.take p ++ removeIfLoop pred (l.drop (p + 1))
    (kept, l.length - kept.length)

/-- RemoveIf(pred) — the capacity is untouched; count decreases by the
removed count, which is returned. -/
def removeIf (pred : T → Bool) (s : LState T) : LState T × Nat :=
  (⟨(removeIfData pred s.data).1, s.capacity⟩, (removeIfData pred s.data).2)

/-- Remove(val) — delegates to RemoveIf with the equality predicate
(e == val); the removed count is the returned value. -/
def remove [DecidableEq T] (val : T) (s : LState T) : LState T × Nat :=
  removeIf (fun e => e == val) s

/-- RemoveAt(index) — throws std::out_of_range when index >= count (the
index < 0 half of the check is vacuous for the unsigned index type),
before any mutation; otherwise move-assigns each element after index one
slot left and destroys the vacated last live slot. -/
def removeAt (i : Nat) (s : LState T) : Except (LState T) (LState T) :=
  if i < s.count then
    .ok ⟨s.data.take i ++ s.data.drop (i + 1), s.capacity⟩
  else .error s

/-- Observable state after a call, whether it returned or threw. -/
def observed : Except (LState T) (LState T) → LState T
  | .ok r => r
  | .error e => e

/-- Whether a call threw. -/
def threw : Except (LState T) (LState T) → Bool
  | .ok _ => false
  | .error _ => true

/-- operator=(const List&) — when this and other are the same object
(isSelf: address identity), do nothing.  Otherwise: Clear(), then
Capacity(other.capacity) — which allocates only when other.capacity
exceeds the current capacity and can then fail — then copy-construct
other's elements in order and adopt other's count. -/
def copyAssign (isSelf allocOk : Bool) (thisS otherS : LState T) :
    Except (LState T) (LState T) :=
  if isSelf then .ok thisS
  else
    match capacitySet allocOk (clear thisS) otherS.capacity with
    | .error e => .error e
    | .ok s1 => .ok ⟨otherS.data, s1.capacity⟩

/-- List(List&&) — steal data, capacity and count; reset the source to
the empty state (null storage, capacity 0, count 0).  Returns the pair
(constructed list, moved-from source). -/
def moveConstruct (src : LState T) : LState T × LState T :=
  (⟨src.data, src.capacity⟩, ⟨[], 0⟩)

/-- swap(first, second) — exchange the two field sets. -/
def swapL (a b : LState T) : LState T × LState T := (b, a)

/-- operator=(List&&) with this and other distinct objects:
move-construct tmp from other, swap *this with tmp, let tmp's
destruction release the old *this resources.  Returns the pair
(new *this, moved-from other). -/
def moveAssign (dst src : LState T) : LState T × LState T :=
  let m := moveConstruct src
  let sw := swapL dst m.1
  (sw.1, m.2)

/-- operator=(List&&) when other is *this itself: tmp move-constructs
from *this, leaving *this empty; the swap then hands tmp's stolen
contents back to *this and the empty state to tmp, whose destructor
releases nothing. -/
def selfMoveAssign (s : LState T) : LState T :=
  let m := moveConstruct s
  let sw := swapL m.2 m.1
  sw.1

/-- Width of size_t on the modelled 64-bit target. -/
def SIZE_T_W : Nat := 2 ^ 64

/-- The size_t value of count - 1, the loop bound and final index used by
Print (wraps around to 2^64 - 1 when count == 0). -/
def printLastIdx (count : Nat) : Nat := (count + (SIZE_T_W - 1)) % SIZE_T_W

/-- Print() reads slot i iff the loop visits it (i < count - 1 in size_t)
or i is the final directly-printed slot (i == count - 1 in size_t). -/
def printReads (count i : Nat) : Bool := decide (i ≤ printLastIdx count)

theorem removeIfLoop_eq_filter (pred : T → Bool) (l : List T) :
    removeIfLoop pred l = l.filter (fun x => !pred x) := by
  induction l with
  | nil => rfl
  | cons x xs ih =>
    by_cases h : pred x <;> simp [removeIfLoop, List.filter_cons, h, ih]

theorem filter_length_add (p : T → Bool) (l : List T) :
    (l.filter p).length + (l.filter (fun x => !p x)).length = l.length := by
  induction l with
  | nil => rfl
  | cons x xs ih =>
    by_cases h : p x <;> simp [List.filter_cons, h] <;> omega

theorem findIfIdx_none (pred : T → Bool) (l : List T)
    (h : findIfIdx pred l = none) :
    l.filter pred = [] ∧ l.filter (fun x => !pred x) = l := by
  induction l with
  | nil => simp
  | cons x xs ih =>
    by_cases hx : pred x
    · simp [findIfIdx, hx] at h
    · simp [findIfIdx, hx, Option.map_eq_none'] at h
      have := ih h
      simp [List.filter_cons, hx, this.1, this.2]

theorem removeIfData_eq (pred : T → Bool) (l : List T) :
    removeIfData pred l =
      (l.filter (fun x => !pred x), (l.filter pred).length) := by
  induction l with
  | nil => rfl
  | cons x xs ih =>
    by_cases h : pred x
    · have hsum := filter_length_add pred xs
      simp [removeIfData, findIfIdx, h, List.filter_cons,
            removeIfLoop_eq_filter]
      omega
    · cases hf : findIfIdx pred xs with
      | none =>
        have hn := findIfIdx_none pred xs hf
        simp [removeIfData, findIfIdx, h, hf, List.filter_cons, hn.1, hn.2]
      | some q =>
        have hsum := filter_length_add pred xs
        have ih2 := ih
        simp [removeIfData, hf] at ih2
        simp [removeIfData, findIfIdx, h, hf, List.filter_cons,
              List.drop_succ_cons, List.take_succ_cons, ih2.1]
        have hlen : (xs.filter fun x => !pred x).length ≤ xs.length :=
          List.length_filter_le _ _
        omega

theorem addOk_data (s : LState T) (v : T) : (addOk s v).data = s.data ++ [v] := by
  unfold addOk
  split <;> rfl

theorem addAll_data (vs : List T) :
    ∀ s : LState T, (addAll s vs).data = s.data ++ vs := by
  induction vs with
  | nil => intro s; simp [addAll]
  | cons v vs ih =>
    intro s
    show (addAll (addOk s v) vs).data = s.data ++ v :: vs
    rw [ih, addOk_data]
    simp

theorem resize_error (a : Bool) (s : LState T) (n : Nat) (e : LState T)
    (h : resize a s n = .error e) : e = s := by
  unfold resize at h
  split at h <;> simp_all

theorem capacitySet_error (a : Bool) (s : LState T) (n : Nat) (e : LState T)
    (h : capacitySet a s n = .error e) : e = s := by
  unfold capacitySet at h
  split at h
  · simp_all
  · exact resize_error a s n e h

/-- Claim C1 is false as stated: on the list [2, 2], Remove(2) removes
both occurrences, so Count() drops by 2 (to 0) rather than by exactly 1,
and the returned removed count is 2. -/
theorem remove_first_only_cex :
    (2 : Nat) ∈ (⟨[2, 2], 2⟩ : LState Nat).data ∧
    (remove 2 (⟨[2, 2], 2⟩ : LState Nat)).1.count ≠
      (⟨[2, 2], 2⟩ : LState Nat).count - 1 ∧
    (remove 2 (⟨[2, 2], 2⟩ : LState Nat)).2 = 2 := by
  decide

/-- Claim C1 (amended): Remove(v) delegates to RemoveIf with an equality
predicate and so removes every element equal to v; Count() decreases by
the number of elements equal to v (0 when there is none), the kept
elements are the ones not equal to v in their original order, capacity is
unchanged, and the returned removed count is nonzero exactly when a
removal occurred. -/
theorem remove_spec [DecidableEq T] (v : T) (s : LState T) :
    (remove v s).2 = s.data.count v ∧
    (remove v s).1.data = s.data.filter (fun e => !(e == v)) ∧
    (remove v s).1.capacity = s.capacity ∧
    (remove v s).1.count = s.count - s.data.count v ∧
    ((remove v s).2 ≠ 0 ↔ v ∈ s.data) := by
  have h := removeIfData_eq (fun e => e == v) s.data
  have hcount : s.data.count v = (s.data.filter (fun e => e == v)).length := by
    rw [List.count_eq_countP, List.countP_eq_length_filter]
  have hsum := filter_length_add (fun e => e == v) s.data
  have hmem : (0 < s.data.count v) ↔ v ∈ s.data := List.count_pos_iff
  refine ⟨?_, ?_, rfl, ?_, ?_⟩
  · simp [remove, removeIf, h, hcount]
  · simp [remove, removeIf, h]
  · simp [remove, removeIf, h, LState.count, hcount]
    omega
  · have h2 : (remove v s).2 = s.data.count v := by
      simp [remove, removeIf, h, hcount]
    rw [h2, ← hmem]
    omega


/-- Claim C4: RemoveIf(pred) returns the number of elements satisfying
pred, Count() decreases by exactly that number, the kept elements are
the non-matching ones in their original relative order (the result is
the filter of the original sequence), capacity is untouched; on
[1,2,3,4,5] with a predicate matching 2 and 4 the result is [1,3,5],
the return value is 2 and Count() becomes 3. -/
theorem removeIf_spec (pred : T → Bool) (s : LState T) :
    (removeIf pred s).2 = (s.data.filter pred).length ∧
    (removeIf pred s).1.data = s.data.filter (fun x => !pred x) ∧
    (removeIf pred s).1.capacity = s.capacity ∧
    (removeIf pred s).1.count = s.count - (s.data.filter pred).length ∧
    removeIf (fun x => x == 2 || x == 4) (⟨[1, 2, 3, 4, 5], 5⟩ : LState Nat) =
      (⟨[1, 3, 5], 5⟩, 2) := by
  have h := removeIfData_eq pred s.data
  have hsum := filter_length_add pred s.data
  refine ⟨?_, ?_, rfl, ?_, by decide⟩
  · simp [removeIf, h]
  · simp [removeIf, h]
  · simp [removeIf, h, LState.count]
    omega

/-- Claim C5: RemoveAt(index) fails with an out-of-range error exactly
when index >= count, and the error propagates with the container
unchanged; when index < count the elements after index are shifted one
slot left (order preserved: slot j afterwards holds what slot j + 1 held
for j >= index, and what slot j held for j < index), Count() decreases
by 1 and capacity is unchanged. -/
theorem removeAt_spec (i : Nat) (s : LState T) :
    (removeAt i s = .error s ↔ s.count ≤ i) ∧
    (observed (removeAt i s)).capacity = s.capacity ∧
    (observed (removeAt i s)).count =
      (if i < s.count then s.count - 1 else s.count) ∧
    ∀ j, (observed (removeAt i s)).data[j]? =
      (if i < s.count ∧ i ≤ j then s.data[j + 1]? else s.data[j]?) := by
  by_cases hi : i < s.count
  · have hdata : (s.data.take i ++ s.data.drop (i + 1)) = s.data.eraseIdx i :=
      (List.eraseIdx_eq_take_drop_succ s.data i).symm
    refine ⟨?_, ?_, ?_, ?_⟩
    · simp [removeAt, hi]
    · simp [removeAt, hi, observed]
    · simp [removeAt, hi, observed, LState.count, hdata, List.length_eraseIdx,
            show i < s.data.length from hi]
    · intro j
      simp only [removeAt, hi, if_pos, observed, hdata]
      rw [List.getElem?_eraseIdx]
      by_cases hj : j < i
      · simp [hj, show ¬ (i ≤ j) from by omega]
      · simp [hj, show i ≤ j from by omega, hi]
  · refine ⟨?_, ?_, ?_, ?_⟩
    · simp [removeAt, hi]
      omega
    · simp [removeAt, hi, observed]
    · simp [removeAt, hi, observed]
    · intro j
      simp [removeAt, hi, observed]

/-- Claim C2 is false as stated: copy-assignment clears the destination
before performing the growth allocation, so when that allocation fails
(here: destination [5] with capacity 1, source [1, 2] with capacity 2,
allocator failing) the error propagates with the destination already
emptied — its prior element and count are not intact. -/
theorem copy_assign_clears_before_alloc_cex :
    threw (copyAssign false false (⟨[5], 1⟩ : LState Nat) ⟨[1, 2], 2⟩) = true ∧
    observed (copyAssign false false (⟨[5], 1⟩ : LState Nat) ⟨[1, 2], 2⟩) =
      ⟨[], 1⟩ ∧
    (⟨[], 1⟩ : LState Nat) ≠ ⟨[5], 1⟩ := by
  decide

/-- Claim C2 (amended): among the mutating operations, the Capacity
setter, ShrinkToFit, Add and RemoveAt either fully succeed or fail with
the prior observable state (elements, count, capacity) intact — their
fallible step precedes any mutation — and Clear, Remove, RemoveIf and
move-assignment never fail; but copy-assignment is the exception: when
its growth allocation fails, the error propagates with the destination
already cleared (count 0, capacity retained), not with its prior
contents. -/
theorem mutators_failure_atomicity (allocOk : Bool) (s other : LState T)
    (n i : Nat) (v : T) :
    (capacitySet allocOk s n = .error s ∨
      ∃ r, capacitySet allocOk s n = .ok r) ∧
    (shrinkToFit allocOk s = .error s ∨ ∃ r, shrinkToFit allocOk s = .ok r) ∧
    (add allocOk s v = .error s ∨ ∃ r, add allocOk s v = .ok r) ∧
    (removeAt i s = .error s ∨ ∃ r, removeAt i s = .ok r) ∧
    (copyAssign false allocOk s other = .error (clear s) ∨
      ∃ r, copyAssign false allocOk s other = .ok r) := by
  refine ⟨?_, ?_, ?_, ?_, ?_⟩
  · cases hc : capacitySet allocOk s n with
    | error e => exact Or.inl (by rw [capacitySet_error allocOk s n e hc])
    | ok r => exact Or.inr ⟨r, rfl⟩
  · unfold shrinkToFit resize
    split
    · exact Or.inr ⟨s, rfl⟩
    · split
      · exact Or.inr ⟨_, rfl⟩
      · exact Or.inl rfl
  · unfold add
    split
    · cases hc : capacitySet allocOk s (max (2 * s.capacity) 1) with
      | error e =>
        have he : e = s := capacitySet_error allocOk s _ e hc
        subst he
        simp
      | ok r => simp
    · exact Or.inr ⟨_, rfl⟩
  · unfold removeAt
    split
    · exact Or.inr ⟨_, rfl⟩
    · exact Or.inl rfl
  · unfold copyAssign
    simp only [Bool.false_eq_true, if_false]
    cases hc : capacitySet allocOk (clear s) other.capacity with
    | error e =>
      have he : e = clear s := capacitySet_error allocOk (clear s) _ e hc
      subst he
      simp
    | ok r => simp

/-- Claim C3 fails on the code: Print() computes count - 1 in size_t, so
on the empty list (count == 0) the bound wraps to 2^64 - 1 and Print
reads slot 0 (and far beyond) even though no slot lies in [0, 0); on a
non-empty list (here count == 3) the slots read are exactly [0, count). -/
theorem print_empty_out_of_range :
    printReads 0 0 = true ∧ ¬ (0 < (0 : Nat)) ∧
    (∀ i, printReads 3 i = true ↔ i < 3) := by
  have h3 : printLastIdx 3 = 2 := by decide
  refine ⟨by decide, by decide, ?_⟩
  intro i
  simp only [printReads, h3, decide_eq_true_eq]
  omega

/-- Claim C6: after a move (move-construction or move-assignment between
distinct objects) the source is the empty state (count 0, capacity 0,
null storage) and the destination holds exactly the elements the source
held before, in the same order (with its capacity and count). -/
theorem move_spec (dst src : LState T) :
    moveConstruct src = (src, emptyList) ∧
    (moveConstruct src).2.count = 0 ∧
    (moveConstruct src).2.capacity = 0 ∧
    moveAssign dst src = (src, emptyList) ∧
    (moveAssign dst src).1.data = src.data := by
  exact ⟨rfl, rfl, rfl, rfl, rfl⟩

/-- Claim C7: after any sequence of Add calls on an empty list, Count()
equals the number of adds and unchecked indexed access at i yields the
i-th added value (insertion order preserved). -/
theorem add_insertion_order (vs : List T) :
    (addAll emptyList vs).count = vs.length ∧
    (addAll emptyList vs).data = vs ∧
    ∀ i, idx (addAll emptyList vs) i = vs[i]? := by
  have h : (addAll emptyList vs).data = vs := by
    rw [addAll_data vs emptyList]
    rfl
  exact ⟨by simp [LState.count, h], h, fun i => by simp [idx, h]⟩

/-- Claim C8: Capacity(n) with a succeeding allocator is a no-op when
n <= capacity and otherwise reallocates to exactly n; ShrinkToFit leaves
capacity == Count(); in both cases the live elements (hence Count()) are
unchanged. -/
theorem capacity_shrink_spec (s : LState T) (n : Nat) :
    capacitySet true s n =
      .ok ⟨s.data, if n ≤ s.capacity then s.capacity else n⟩ ∧
    shrinkToFit true s = .ok ⟨s.data, s.count⟩ := by
  constructor
  · unfold capacitySet resize
    split
    · rfl
    · simp
  · unfold shrinkToFit resize
    split
    · rename_i h
      cases s
      simp_all [LState.count]
    · simp

/-- Claim C9: self-copy-assignment (detected by address identity) is a
safe no-op — the elements, Count() and Capacity() are unchanged and no
storage is released or reallocated. -/
theorem self_copy_assign_noop (allocOk : Bool) (s : LState T) :
    copyAssign true allocOk s s = .ok s := rfl

/-- Claim C10: self-move-assignment move-constructs a temporary from the
source (leaving *this empty) and then swaps every field with it, so
*this ends up with its original elements, Count() and Capacity(), and
the temporary destroys only the empty state. -/
theorem self_move_assign_noop (s : LState T) : selfMoveAssign s = s := rfl
